import Mathlib

/-!
# tracking3D_rplidar: `tes_pc.cpp`

A shallow embedding of the two units of work of `src/tes_pc.cpp`:

* the sweep loop of `main` (one iteration of `while (ros::ok())` is `tick`);
* the scan handler `lidarCallback`.

Machine integers are `Nat`/`Int`; the `double` expression of
`current_angle` is evaluated in `ℚ` (every intermediate value is a multiple
of `1/512` below `2^13`, hence exact in binary64); the trigonometric
arithmetic of the projection is kept abstract in `Arith`.
-/

namespace Tracking3D

/-! ## Constants -/

/-- Source: `#define DXL_MINIMUM_POSITION_VALUE 200`. -/
def DXL_MINIMUM_POSITION_VALUE : Int := 200

/-- Source: `#define DXL_MAXIMUM_POSITION_VALUE 500`. -/
def DXL_MAXIMUM_POSITION_VALUE : Int := 500

/-- Source: `#define DXL_MOVING_STATUS_THRESHOLD 10`. -/
def DXL_MOVING_STATUS_THRESHOLD : Int := 10

/-- Source: `#define SERVO2DEG 0.087890625`, which is `45/512`. -/
def SERVO2DEG : ℚ := 0.087890625

/-- Source: `#define ORIGIN_SERVO 330`. -/
def ORIGIN_SERVO : Int := 330

/-- Source: `int dxl_goal_position[2] = {DXL_MINIMUM_POSITION_VALUE, DXL_MAXIMUM_POSITION_VALUE}`. -/
def dxl_goal_position : List Int := [DXL_MINIMUM_POSITION_VALUE, DXL_MAXIMUM_POSITION_VALUE]

/-! ## Sweep controller (`main`, the body of `while (ros::ok())`) -/

/-- The variables of `main` that survive from one loop iteration to the next:
the local `int index` and the global `uint16_t dxl_present_position`. -/
structure Controller where
  index : Nat
  dxl_present_position : Nat
  deriving DecidableEq, Repr

/-- State at loop entry: `int index = 0`, `uint16_t dxl_present_position = 0`. -/
def Controller.init : Controller := ⟨0, 0⟩

/-- One iteration of the loop body.  `read` is what `read2ByteTxRx` stored
through `&dxl_present_position`: `some p` when it stored `p`, `none` when it
stored nothing.  The goal write and the `printf`s touch neither variable.
`dxl_goal_position[index]` outside the array gives `none`. -/
def tick (s : Controller) (read : Option Nat) : Option Controller :=
  match dxl_goal_position[s.index]? with
  | none => none
  | some goal =>
    let present : Nat :=
      match read with
      | some p => p
      | none => s.dxl_present_position
    if (goal - (present : Int)).natAbs < DXL_MOVING_STATUS_THRESHOLD then
      some ⟨if s.index = 0 then 1 else 0, present⟩
    else
      some ⟨s.index, present⟩

/-- Runs the loop body once per element of `reads`, in order. -/
def run (s : Controller) : List (Option Nat) → Option Controller
  | [] => some s
  | r :: rs =>
    match tick s r with
    | none => none
    | some s' => run s' rs

/-- The commanded goal is at least the threshold away from the stored
position, and `index` selects one of the two goals. -/
def Moving (s : Controller) : Prop :=
  (s.index = 0 ∧ ¬ ((DXL_MINIMUM_POSITION_VALUE - (s.dxl_present_position : Int)).natAbs
      < DXL_MOVING_STATUS_THRESHOLD)) ∨
  (s.index = 1 ∧ ¬ ((DXL_MAXIMUM_POSITION_VALUE - (s.dxl_present_position : Int)).natAbs
      < DXL_MOVING_STATUS_THRESHOLD))

/-! ## Raw angle to elevation (`lidarCallback`, line 60) -/

/-- C `round` on a value that is exact in binary64: nearest integer, halfway
cases away from zero. -/
def cRound (x : ℚ) : Int :=
  if 0 ≤ x then ⌊x + 1 / 2⌋ else ⌈x - 1 / 2⌉

/-- The argument of `round`: `90-(dxl_present_position-ORIGIN_SERVO)*SERVO2DEG`.
The subtraction is done in `int` (the `uint16_t` is promoted). -/
def elevationDeg (dxl_present_position : Nat) : ℚ :=
  90 - ((((dxl_present_position : Int) - ORIGIN_SERVO : Int) : ℚ)) * SERVO2DEG

/-- Source: `int current_angle = round(90-(dxl_present_position-ORIGIN_SERVO)*SERVO2DEG);` -/
def current_angle (dxl_present_position : Nat) : Int :=
  cRound (elevationDeg dxl_present_position)

/-! ## Scan handler (`lidarCallback`) -/

/-- The floating-point operations the projection uses, kept abstract:
`ofInt` is the `int → double` conversion, `deg2rad` the constant `DEG2RAD`
(`0.0175`), `mul`/`cos`/`sin` the `double` operations, `zero` the value of a
freshly constructed coordinate, and `narrow` the `double → float` conversion
done when a `geometry_msgs::Point32` field is assigned.  (The `float → double`
widening of `input.ranges[i]` is exact and is not represented.) -/
structure Arith (F : Type) where
  ofInt : Int → F
  deg2rad : F
  mul : F → F → F
  cos : F → F
  sin : F → F
  zero : F
  narrow : F → F

/-- The message type `geometry_msgs::Point32`. -/
structure Point32 (F : Type) where
  x : F
  y : F
  z : F
  deriving DecidableEq, Repr

/-- The message type `sensor_msgs::PointCloud`, as far as the handler touches it. -/
structure PointCloud (F : Type) where
  frame_id : String
  points : List (Point32 F)
  deriving DecidableEq, Repr

/-- Models `std::vector::resize(n)`: keeps the first `n` elements and pads with
value-initialised points (all coordinates zero). -/
def resize {F : Type} (A : Arith F) (pts : List (Point32 F)) (n : Nat) : List (Point32 F) :=
  pts.take n ++ List.replicate (n - pts.length) ⟨A.zero, A.zero, A.zero⟩

/-- The three right-hand sides of the loop body (lines 67-69) for sample `i`
with range `r` and elevation `c`. -/
def samplePoint {F : Type} (A : Arith F) (c : Int) (i : Nat) (r : F) : Point32 F :=
  { x := A.narrow (A.mul (A.mul r (A.cos (A.mul (A.ofInt i) A.deg2rad)))
                         (A.sin (A.mul (A.ofInt c) A.deg2rad)))
    y := A.narrow (A.mul (A.mul r (A.sin (A.mul (A.ofInt i) A.deg2rad)))
                         (A.sin (A.mul (A.ofInt c) A.deg2rad)))
    z := A.narrow (A.mul (A.mul r (A.cos (A.mul (A.ofInt c) A.deg2rad)))
                         (A.cos (A.mul (A.ofInt i) A.deg2rad))) }

/-- The subscript `i*current_angle` of `pc.points[...]`. -/
def slot (c : Int) (i : Nat) : Int := (i : Int) * c

/-- One pass of the `for` body.  `none` when `input.ranges[i]` or
`pc.points[i*current_angle]` is outside its vector. -/
def loopBody {F : Type} (A : Arith F) (c : Int) (ranges : List F)
    (pts : List (Point32 F)) (i : Nat) : Option (List (Point32 F)) :=
  match ranges[i]? with
  | none => none
  | some r =>
    if 0 ≤ slot c i ∧ (slot c i).toNat < pts.length then
      some (pts.set (slot c i).toNat (samplePoint A c i r))
    else
      none

/-- The handler: `pc` is the global cloud as the previous call left it,
`dxl_present_position` the global the sweep loop writes, `ranges` the
`input.ranges` of the message.  The result is the cloud handed to
`pub_point.publish`, which is also what stays in the global. -/
def lidarCallback {F : Type} (A : Arith F) (pc : PointCloud F) (dxl_present_position : Nat)
    (ranges : List F) : Option (PointCloud F) :=
  let c := current_angle dxl_present_position
  match (List.range 360).foldlM (loopBody A c ranges) (resize A pc.points (360 * 360)) with
  | none => none
  | some pts => some { frame_id := "base_link", points := pts }

/-! ## A symbolic interpretation of the arithmetic -/

/-- Expressions over the operations of `Arith`: each operation builds the
term that names its result, `sample k` names the `k`-th range of a scan. -/
inductive Sym where
  | ofInt (n : Int)
  | deg2rad
  | mul (a b : Sym)
  | cos (a : Sym)
  | sin (a : Sym)
  | zero
  | narrow (a : Sym)
  | sample (k : Nat)
  deriving DecidableEq, Repr

/-- The interpretation in which no two different computations are identified. -/
def symArith : Arith Sym :=
  ⟨Sym.ofInt, Sym.deg2rad, Sym.mul, Sym.cos, Sym.sin, Sym.zero, Sym.narrow⟩

/-- A scan of 360 distinct symbolic ranges. -/
def symScan : List Sym := (List.range 360).map Sym.sample

/-- The global `pc` before the first call: no points. -/
def emptyCloud : PointCloud Sym := ⟨"", []⟩

/-- A cloud holding two points left by earlier processing. -/
def usedCloud : PointCloud Sym :=
  ⟨"base_link", [⟨Sym.sample 7, Sym.sample 8, Sym.sample 9⟩,
    ⟨Sym.sample 7, Sym.sample 8, Sym.sample 9⟩]⟩

/-! ## The reading in exact real arithmetic -/

/-- Says that `A` computes in exact real arithmetic: the conversions lose nothing,
`DEG2RAD` is `0.0175`, and `mul`, `cos`, `sin` are the real operations. -/
def ExactReal (A : Arith ℝ) : Prop :=
  (∀ n : Int, A.ofInt n = (n : ℝ)) ∧ A.deg2rad = 0.0175 ∧ (∀ x y, A.mul x y = x * y) ∧
  (∀ x, A.cos x = Real.cos x) ∧ (∀ x, A.sin x = Real.sin x) ∧ A.zero = 0 ∧
  (∀ x, A.narrow x = x)

/-- The point `p` lies at distance `r` from the origin. -/
def RangePreserved (p : Point32 ℝ) (r : ℝ) : Prop :=
  Real.sqrt (p.x ^ 2 + p.y ^ 2 + p.z ^ 2) = r

end Tracking3D

namespace Tracking3D

/-! ## Lemmas on the sweep controller -/

theorem tick_index_zero (pos : Nat) (read : Option Nat) :
    tick ⟨0, pos⟩ read =
      some ⟨if ((200 : Int) - ((read.getD pos : Nat) : Int)).natAbs < (10 : Int) then 1 else 0,
        read.getD pos⟩ := by
  cases read <;>
    simp only [tick, dxl_goal_position, DXL_MINIMUM_POSITION_VALUE, DXL_MOVING_STATUS_THRESHOLD,
      List.getElem?_cons_zero, Option.getD_some, Option.getD_none] <;>
    split <;> simp

theorem tick_index_one (pos : Nat) (read : Option Nat) :
    tick ⟨1, pos⟩ read =
      some ⟨if ((500 : Int) - ((read.getD pos : Nat) : Int)).natAbs < (10 : Int) then 0 else 1,
        read.getD pos⟩ := by
  cases read <;>
    simp only [tick, dxl_goal_position, DXL_MAXIMUM_POSITION_VALUE, DXL_MOVING_STATUS_THRESHOLD,
      List.getElem?_cons_succ, List.getElem?_cons_zero, Option.getD_some, Option.getD_none] <;>
    split <;> simp

theorem Moving_init : Moving Controller.init := by
  refine Or.inl ⟨rfl, ?_⟩
  show ¬ ((200 : Int) - ((0 : Nat) : Int)).natAbs < (10 : Int)
  omega

/-- A tick from a `Moving` state succeeds and ends in a `Moving` state,
whatever the read stored. -/
theorem tick_Moving (s : Controller) (read : Option Nat) (h : Moving s) :
    ∃ s', tick s read = some s' ∧ Moving s' := by
  obtain ⟨idx, pos⟩ := s
  unfold Moving at h
  simp only [DXL_MINIMUM_POSITION_VALUE, DXL_MAXIMUM_POSITION_VALUE,
    DXL_MOVING_STATUS_THRESHOLD] at h
  rcases h with ⟨h0, _⟩ | ⟨h1, _⟩
  · have h0' : idx = 0 := h0
    subst h0'
    refine ⟨_, tick_index_zero pos read, ?_⟩
    by_cases hc : ((200 : Int) - ((read.getD pos : Nat) : Int)).natAbs < (10 : Int)
    · rw [if_pos hc]
      refine Or.inr ⟨rfl, ?_⟩
      show ¬ ((500 : Int) - ((read.getD pos : Nat) : Int)).natAbs < (10 : Int)
      omega
    · rw [if_neg hc]
      exact Or.inl ⟨rfl, hc⟩
  · have h1' : idx = 1 := h1
    subst h1'
    refine ⟨_, tick_index_one pos read, ?_⟩
    by_cases hc : ((500 : Int) - ((read.getD pos : Nat) : Int)).natAbs < (10 : Int)
    · rw [if_pos hc]
      refine Or.inl ⟨rfl, ?_⟩
      show ¬ ((200 : Int) - ((read.getD pos : Nat) : Int)).natAbs < (10 : Int)
      omega
    · rw [if_neg hc]
      exact Or.inr ⟨rfl, hc⟩

theorem run_Moving (reads : List (Option Nat)) :
    ∀ s, Moving s → ∃ s', run s reads = some s' ∧ Moving s' := by
  induction reads with
  | nil => exact fun s h => ⟨s, rfl, h⟩
  | cons r rs ih =>
    intro s h
    obtain ⟨s1, h1, hm1⟩ := tick_Moving s r h
    obtain ⟨s2, h2, hm2⟩ := ih s1 hm1
    refine ⟨s2, ?_, hm2⟩
    simp only [run, h1]
    exact h2

/-- A tick whose read stores nothing, taken in a `Moving` state, changes
nothing. -/
theorem tick_none_of_Moving (s : Controller) (h : Moving s) : tick s none = some s := by
  obtain ⟨idx, pos⟩ := s
  unfold Moving at h
  simp only [DXL_MINIMUM_POSITION_VALUE, DXL_MAXIMUM_POSITION_VALUE,
    DXL_MOVING_STATUS_THRESHOLD] at h
  rcases h with ⟨h0, hd⟩ | ⟨h1, hd⟩
  · have h0' : idx = 0 := h0
    subst h0'
    rw [tick_index_zero, Option.getD_none, if_neg hd]
  · have h1' : idx = 1 := h1
    subst h1'
    rw [tick_index_one, Option.getD_none, if_neg hd]

/-! ## Lemmas on the raw-angle conversion -/

theorem elevationDeg_eq (a : Nat) : elevationDeg a = (60930 - 45 * (a : ℚ)) / 512 := by
  unfold elevationDeg SERVO2DEG ORIGIN_SERVO
  push_cast
  ring

theorem elevationDeg_add_half (a : Nat) :
    elevationDeg a + 1 / 2 = ((61186 - 45 * (a : Int) : Int) : ℚ) / ((512 : Nat) : ℚ) := by
  rw [elevationDeg_eq]
  push_cast
  ring

theorem elevationDeg_nonneg_iff (a : Nat) : 0 ≤ elevationDeg a ↔ a ≤ 1354 := by
  rw [elevationDeg_eq]
  constructor
  · intro h
    have h2 : (a : ℚ) < 1355 := by linarith
    have h3 : a < 1355 := by exact_mod_cast h2
    omega
  · intro h
    have h2 : (a : ℚ) ≤ 1354 := by exact_mod_cast h
    linarith

/-- On the range where the argument of `round` is non-negative the result is
an integer quotient. -/
theorem current_angle_eq (a : Nat) (h : a ≤ 1354) :
    current_angle a = (61186 - 45 * (a : Int)) / 512 := by
  unfold current_angle cRound
  rw [if_pos ((elevationDeg_nonneg_iff a).2 h), elevationDeg_add_half,
    Rat.floor_intCast_div_natCast]
  rfl

theorem current_angle_bounds (a : Nat) (h : a ≤ 1023) :
    29 ≤ current_angle a ∧ current_angle a ≤ 119 := by
  rw [current_angle_eq a (by omega)]
  omega

theorem cRound_mono {x y : ℚ} (h : x ≤ y) : cRound x ≤ cRound y := by
  unfold cRound
  by_cases hx : 0 ≤ x
  · rw [if_pos hx, if_pos (le_trans hx h)]
    exact Int.floor_mono (by linarith)
  · rw [if_neg hx]
    by_cases hy : 0 ≤ y
    · rw [if_pos hy]
      have h1 : ⌈x - 1 / 2⌉ ≤ 0 := by
        rw [Int.ceil_le]
        push_cast
        linarith [not_le.1 hx]
      have h2 : 0 ≤ ⌊y + 1 / 2⌋ := by
        rw [Int.le_floor]
        push_cast
        linarith
      exact le_trans h1 h2
    · rw [if_neg hy]
      exact Int.ceil_mono (by linarith)

theorem elevationDeg_antitone {a b : Nat} (h : a ≤ b) : elevationDeg b ≤ elevationDeg a := by
  rw [elevationDeg_eq, elevationDeg_eq]
  have h2 : (a : ℚ) ≤ b := by exact_mod_cast h
  linarith

/-! ## Lemmas on the scan handler -/

theorem length_resize {F : Type} (A : Arith F) (pts : List (Point32 F)) (n : Nat) :
    (resize A pts n).length = n := by
  unfold resize
  simp only [List.length_append, List.length_take, List.length_replicate]
  omega

theorem resize_of_length {F : Type} (A : Arith F) (pts : List (Point32 F)) (n : Nat)
    (h : pts.length = n) : resize A pts n = pts := by
  unfold resize
  rw [h, Nat.sub_self, List.replicate_zero, List.append_nil, ← h, List.take_length]

theorem resize_getElem?_of_lt {F : Type} (A : Arith F) (pts : List (Point32 F)) (n j : Nat)
    (hj : j < pts.length) (hn : j < n) : (resize A pts n)[j]? = pts[j]? := by
  unfold resize
  rw [List.getElem?_append_left (by rw [List.length_take]; omega),
    List.getElem?_take_of_lt hn]

theorem resize_getElem?_of_ge {F : Type} (A : Arith F) (pts : List (Point32 F)) (n j : Nat)
    (hj : pts.length ≤ j) (hn : j < n) :
    (resize A pts n)[j]? = some ⟨A.zero, A.zero, A.zero⟩ := by
  unfold resize
  have hlen : (List.take n pts).length = pts.length := by
    rw [List.length_take]
    omega
  rw [List.getElem?_append_right (by rw [hlen]; exact hj), hlen,
    List.getElem?_replicate_of_lt (by omega)]

theorem loopBody_eq {F : Type} (A : Arith F) (c : Int) (ranges : List F)
    (pts : List (Point32 F)) (i : Nat) (r : F) (hr : ranges[i]? = some r)
    (h0 : 0 ≤ slot c i) (h1 : (slot c i).toNat < pts.length) :
    loopBody A c ranges pts i = some (pts.set (slot c i).toNat (samplePoint A c i r)) := by
  unfold loopBody
  rw [hr]
  simp only
  rw [if_pos ⟨h0, h1⟩]

/-- The loop over any list of sample indices whose reads and writes are all in
bounds and whose slots are pairwise different: it finishes, keeps the length,
leaves each sample's point in its slot and touches no other slot. -/
theorem foldlM_loopBody {F : Type} (A : Arith F) (c : Int) (ranges : List F) :
    ∀ (is : List Nat) (pts : List (Point32 F)),
      (∀ i ∈ is, i < ranges.length) →
      (∀ i ∈ is, 0 ≤ slot c i ∧ (slot c i).toNat < pts.length) →
      (∀ i ∈ is, ∀ k ∈ is, (slot c i).toNat = (slot c k).toNat → i = k) →
      ∃ out, is.foldlM (loopBody A c ranges) pts = some out ∧ out.length = pts.length ∧
        (∀ i ∈ is, ∀ r, ranges[i]? = some r →
          out[(slot c i).toNat]? = some (samplePoint A c i r)) ∧
        (∀ j, (∀ i ∈ is, (slot c i).toNat ≠ j) → out[j]? = pts[j]?) := by
  intro is
  induction is with
  | nil =>
    intro pts _ _ _
    exact ⟨pts, rfl, rfl, fun i hi => absurd hi (List.not_mem_nil i), fun _ _ => rfl⟩
  | cons i0 is ih =>
    intro pts hr hs hinj
    have hi0 : i0 < ranges.length := hr i0 (List.mem_cons_self _ _)
    obtain ⟨h0, h1⟩ := hs i0 (List.mem_cons_self _ _)
    have hget : ranges[i0]? = some ranges[i0] := List.getElem?_eq_getElem hi0
    have hbody := loopBody_eq A c ranges pts i0 ranges[i0] hget h0 h1
    obtain ⟨out, hout, hlen, hwr, hkeep⟩ :=
      ih (pts.set (slot c i0).toNat (samplePoint A c i0 ranges[i0]))
        (fun i hi => hr i (List.mem_cons_of_mem _ hi))
        (fun i hi => by
          rw [List.length_set]
          exact hs i (List.mem_cons_of_mem _ hi))
        (fun i hi k hk => hinj i (List.mem_cons_of_mem _ hi) k (List.mem_cons_of_mem _ hk))
    refine ⟨out, ?_, ?_, ?_, ?_⟩
    · rw [List.foldlM_cons, hbody]
      exact hout
    · rw [hlen, List.length_set]
    · intro i hi r hir
      by_cases hmem : i ∈ is
      · exact hwr i hmem r hir
      · have hi_eq : i = i0 := by
          rcases List.mem_cons.1 hi with h | h
          · exact h
          · exact absurd h hmem
        subst hi_eq
        have hrr : ranges[i] = r := by
          rw [hget] at hir
          exact Option.some.inj hir
        rw [hkeep (slot c i).toNat (fun k hk hEq =>
          hmem ((hinj k (List.mem_cons_of_mem _ hk) i (List.mem_cons_self _ _) hEq) ▸ hk))]
        rw [List.getElem?_set_self h1, hrr]
    · intro j hj
      rw [hkeep j (fun i hi => hj i (List.mem_cons_of_mem _ hi))]
      exact List.getElem?_set_ne (hj i0 (List.mem_cons_self _ _))

theorem loopBody_length {F : Type} (A : Arith F) (c : Int) (ranges : List F)
    (pts out : List (Point32 F)) (i : Nat) (h : loopBody A c ranges pts i = some out) :
    out.length = pts.length := by
  unfold loopBody at h
  split at h
  · exact absurd h (by simp)
  · split at h
    · rw [← Option.some.inj h, List.length_set]
    · exact absurd h (by simp)

theorem foldlM_loopBody_length {F : Type} (A : Arith F) (c : Int) (ranges : List F) :
    ∀ (is : List Nat) (pts out : List (Point32 F)),
      is.foldlM (loopBody A c ranges) pts = some out → out.length = pts.length := by
  intro is
  induction is with
  | nil =>
    intro pts out h
    rw [List.foldlM_nil] at h
    rw [← Option.some.inj h]
  | cons i0 is ih =>
    intro pts out h
    rw [List.foldlM_cons] at h
    cases hb : loopBody A c ranges pts i0 with
    | none =>
      rw [hb] at h
      exact absurd h (by simp)
    | some pts1 =>
      rw [hb] at h
      rw [ih pts1 out h, loopBody_length A c ranges pts pts1 i0 hb]

theorem lidarCallback_length {F : Type} (A : Arith F) (pc out : PointCloud F) (a : Nat)
    (ranges : List F) (h : lidarCallback A pc a ranges = some out) :
    out.points.length = 360 * 360 := by
  unfold lidarCallback at h
  simp only at h
  split at h
  · exact absurd h (by simp)
  · rename_i pts hpts
    rw [← Option.some.inj h]
    simp only
    rw [foldlM_loopBody_length A _ ranges _ _ pts hpts, length_resize]

theorem slot_bounds (a i : Nat) (ha : a ≤ 1023) (hi : i < 360) :
    0 ≤ slot (current_angle a) i ∧ (slot (current_angle a) i).toNat < 360 * 360 := by
  obtain ⟨h1, h2⟩ := current_angle_bounds a ha
  unfold slot
  have h3 : (0 : Int) ≤ (i : Int) * current_angle a :=
    Int.mul_nonneg (Int.ofNat_nonneg i) (by omega)
  have h4 : (i : Int) * current_angle a ≤ 359 * 119 :=
    Int.mul_le_mul (by omega) h2 (by omega) (by omega)
  omega

theorem slot_toNat_inj (a i k : Nat) (ha : a ≤ 1023)
    (h : (slot (current_angle a) i).toNat = (slot (current_angle a) k).toNat) : i = k := by
  obtain ⟨h1, _⟩ := current_angle_bounds a ha
  unfold slot at h
  have hi : (0 : Int) ≤ (i : Int) * current_angle a :=
    Int.mul_nonneg (Int.ofNat_nonneg i) (by omega)
  have hk : (0 : Int) ≤ (k : Int) * current_angle a :=
    Int.mul_nonneg (Int.ofNat_nonneg k) (by omega)
  have h2 : (i : Int) * current_angle a = (k : Int) * current_angle a := by omega
  have h3 : (i : Int) = k := Int.eq_of_mul_eq_mul_right (by omega) h2
  exact_mod_cast h3

/-- What one call does when the raw angle is an actuator position (`0..1023`)
and the scan holds at least 360 samples. -/
theorem lidarCallback_spec {F : Type} (A : Arith F) (pc : PointCloud F) (a : Nat)
    (ranges : List F) (ha : a ≤ 1023) (hn : 360 ≤ ranges.length) :
    ∃ out, lidarCallback A pc a ranges = some out ∧ out.frame_id = "base_link" ∧
      out.points.length = 360 * 360 ∧
      (∀ i, i < 360 → ∀ r, ranges[i]? = some r →
        out.points[(slot (current_angle a) i).toNat]? =
          some (samplePoint A (current_angle a) i r)) ∧
      (∀ j, (∀ i, i < 360 → (slot (current_angle a) i).toNat ≠ j) →
        out.points[j]? = (resize A pc.points (360 * 360))[j]?) := by
  obtain ⟨pts, hrun, hlen, hwr, hkeep⟩ :=
    foldlM_loopBody A (current_angle a) ranges (List.range 360)
      (resize A pc.points (360 * 360))
      (fun i hi => lt_of_lt_of_le (List.mem_range.1 hi) hn)
      (fun i hi => by
        rw [length_resize]
        exact slot_bounds a i ha (List.mem_range.1 hi))
      (fun i _ k _ h => slot_toNat_inj a i k ha h)
  refine ⟨⟨"base_link", pts⟩, ?_, rfl, ?_, ?_, ?_⟩
  · unfold lidarCallback
    simp only [hrun]
  · rw [hlen, length_resize]
  · intro i hi r hr
    exact hwr i (List.mem_range.2 hi) r hr
  · intro j hj
    exact hkeep j (fun i hi => hj i (List.mem_range.1 hi))

/-! ## Sweep controller: properties -/

/-- C1: with the active index in {0,1}, let `p` be the position held after the
tick's read (the value the read stored, or the previous one when it stored
nothing).  The tick moves the active index to the other setpoint exactly when
`|goal[active] - p| < 10`; otherwise the index is unchanged.  Holds for every
`p`, so for every `p` in `0..65535`. -/
theorem tick_toggles_iff_settled (idx pos : Nat) (read : Option Nat) (hidx : idx < 2) :
    ∃ g s', dxl_goal_position[idx]? = some g ∧ tick ⟨idx, pos⟩ read = some s' ∧
      s'.dxl_present_position = read.getD pos ∧
      (s'.index ≠ idx ↔ |g - ((read.getD pos : Nat) : Int)| < 10) ∧
      (|g - ((read.getD pos : Nat) : Int)| < 10 → s'.index = 1 - idx) ∧
      (10 ≤ |g - ((read.getD pos : Nat) : Int)| → s'.index = idx) := by
  have hcases : idx = 0 ∨ idx = 1 := by omega
  rcases hcases with h | h
  · subst h
    refine ⟨200, _, rfl, tick_index_zero pos read, rfl, ?_⟩
    rw [← Int.natCast_natAbs]
    by_cases hc : ((200 : Int) - ((read.getD pos : Nat) : Int)).natAbs < (10 : Int)
    · rw [if_pos hc]
      exact ⟨⟨fun _ => hc, fun _ => Nat.one_ne_zero⟩, fun _ => rfl, fun h10 => by omega⟩
    · rw [if_neg hc]
      exact ⟨⟨fun hne => absurd rfl hne, fun h10 => absurd h10 hc⟩,
        fun h10 => absurd h10 hc, fun _ => rfl⟩
  · subst h
    refine ⟨500, _, rfl, tick_index_one pos read, rfl, ?_⟩
    rw [← Int.natCast_natAbs]
    by_cases hc : ((500 : Int) - ((read.getD pos : Nat) : Int)).natAbs < (10 : Int)
    · rw [if_pos hc]
      exact ⟨⟨fun _ => hc, fun _ => Nat.zero_ne_one⟩, fun _ => rfl, fun h10 => by omega⟩
    · rw [if_neg hc]
      exact ⟨⟨fun hne => absurd rfl hne, fun h10 => absurd h10 hc⟩,
        fun h10 => absurd h10 hc, fun _ => rfl⟩

/-- C1 at the two scenarios: active 200 with present 205 ends with active 500,
active 500 with present 480 ends with active 500. -/
theorem tick_toggles_iff_settled_witness :
    0 < 2 ∧
    (∃ g s', dxl_goal_position[0]? = some g ∧ tick ⟨0, 0⟩ (some 205) = some s' ∧
      s'.dxl_present_position = (some 205).getD 0 ∧
      (s'.index ≠ 0 ↔ |g - (((some 205).getD 0 : Nat) : Int)| < 10) ∧
      (|g - (((some 205).getD 0 : Nat) : Int)| < 10 → s'.index = 1 - 0) ∧
      (10 ≤ |g - (((some 205).getD 0 : Nat) : Int)| → s'.index = 0)) ∧
    tick ⟨0, 0⟩ (some 205) = some ⟨1, 205⟩ ∧
    dxl_goal_position[1]? = some 500 ∧
    tick ⟨1, 205⟩ (some 480) = some ⟨1, 480⟩ :=
  ⟨by decide, tick_toggles_iff_settled 0 0 (some 205) (by decide), by decide, by decide,
    by decide⟩

/-- C2: after any sequence of ticks from the initial state (index 0, stored
position 0), whatever each read stored or failed to store, the loop is in some
state `s`, and a further tick whose read stores nothing returns exactly `s`:
stored position and index are unchanged. -/
theorem failed_read_keeps_state (reads : List (Option Nat)) :
    ∃ s, run Controller.init reads = some s ∧ tick s none = some s := by
  obtain ⟨s, hs, hm⟩ := run_Moving reads Controller.init Moving_init
  exact ⟨s, hs, tick_none_of_Moving s hm⟩

/-! ## Raw angle to elevation: properties -/

/-- C5, as stated, fails at raw angle 331: the formula gives
`90 - 0.087890625 = 89.912109375`, the handler uses `90`. -/
theorem elevation_not_exact_at_331 :
    current_angle 331 = 90 ∧
    ((current_angle 331 : Int) : ℚ) ≠ 90 - (331 - 330) * 0.087890625 := by
  have h : current_angle 331 = 90 := by
    rw [current_angle_eq 331 (by decide)]
    decide
  refine ⟨h, ?_⟩
  rw [h]
  norm_num

/-- C5, amended: for a raw angle in `0..1023` the elevation the handler uses
is the integer `c` with `q - 1/2 < c ≤ q + 1/2`, where
`q = 90 - (a - 330) * 0.087890625`; it equals `q` exactly only for `a = 330`
and `a = 842`, and `a = 330` gives 90. -/
theorem elevation_is_rounded_formula (a : Nat) (ha : a ≤ 1023) :
    (90 - ((a : ℚ) - 330) * 0.087890625 - 1 / 2 < ((current_angle a : Int) : ℚ) ∧
      ((current_angle a : Int) : ℚ) ≤ 90 - ((a : ℚ) - 330) * 0.087890625 + 1 / 2) ∧
    (((current_angle a : Int) : ℚ) = 90 - ((a : ℚ) - 330) * 0.087890625 ↔
      a = 330 ∨ a = 842) ∧
    current_angle 330 = 90 := by
  have hc := current_angle_eq a (by omega)
  have h1 : 512 * current_angle a ≤ 61186 - 45 * (a : Int) := by omega
  have h2 : 61186 - 45 * (a : Int) < 512 * current_angle a + 512 := by omega
  have h1q : (512 : ℚ) * ((current_angle a : Int) : ℚ) ≤ 61186 - 45 * (a : ℚ) := by
    qify at h1
    exact h1
  have h2q : 61186 - 45 * (a : ℚ) < (512 : ℚ) * ((current_angle a : Int) : ℚ) + 512 := by
    qify at h2
    exact h2
  have hq : 90 - ((a : ℚ) - 330) * 0.087890625 = (60930 - 45 * (a : ℚ)) / 512 := by
    norm_num
    ring
  rw [hq]
  refine ⟨⟨?_, ?_⟩, ⟨?_, ?_⟩, ?_⟩
  · rw [div_sub' _ _ _ (by norm_num : (512 : ℚ) ≠ 0), div_lt_iff₀ (by norm_num)]
    linarith
  · rw [div_add' _ _ _ (by norm_num : (512 : ℚ) ≠ 0), le_div_iff₀ (by norm_num)]
    linarith
  · intro h
    rw [eq_div_iff (by norm_num : (512 : ℚ) ≠ 0)] at h
    have h3 : current_angle a * 512 = 60930 - 45 * (a : Int) := by
      qify
      exact h
    omega
  · intro h
    rw [eq_div_iff (by norm_num : (512 : ℚ) ≠ 0)]
    have h3 : current_angle a * 512 = 60930 - 45 * (a : Int) := by omega
    qify at h3
    exact h3
  · rw [current_angle_eq 330 (by decide)]
    decide

/-- C5 amended, at the two raw angles where the formula is exact and at one
where it is not. -/
theorem elevation_is_rounded_formula_witness :
    842 ≤ 1023 ∧
    ((90 - (((842 : Nat) : ℚ) - 330) * 0.087890625 - 1 / 2 < ((current_angle 842 : Int) : ℚ) ∧
      ((current_angle 842 : Int) : ℚ) ≤ 90 - (((842 : Nat) : ℚ) - 330) * 0.087890625 + 1 / 2) ∧
    (((current_angle 842 : Int) : ℚ) = 90 - (((842 : Nat) : ℚ) - 330) * 0.087890625 ↔
      842 = 330 ∨ 842 = 842) ∧
    current_angle 330 = 90) :=
  ⟨by decide, elevation_is_rounded_formula 842 (by decide)⟩

/-- C7: for raw angles `a ≤ b` the elevation computed for `a` is at least the
one computed for `b`, and equal raw angles give equal elevations.  Holds for
all raw angles, so on `0..1023`. -/
theorem current_angle_antitone (a b : Nat) (h : a ≤ b) :
    current_angle b ≤ current_angle a ∧ (a = b → current_angle a = current_angle b) :=
  ⟨cRound_mono (elevationDeg_antitone h), fun hab => congrArg current_angle hab⟩

/-- C7 at raw angles 0 and 1023: elevations 119 and 29. -/
theorem current_angle_antitone_witness :
    0 ≤ 1023 ∧ current_angle 0 = 119 ∧ current_angle 1023 = 29 ∧
    (current_angle 1023 ≤ current_angle 0 ∧ (0 = 1023 → current_angle 0 = current_angle 1023)) :=
  ⟨by decide, by rw [current_angle_eq 0 (by decide)]; decide,
    by rw [current_angle_eq 1023 (by decide)]; decide,
    current_angle_antitone 0 1023 (by decide)⟩

/-! ## Scan handler: properties -/

/-- C3, as stated, fails: on an empty prior cloud, raw angle 330 and a scan of
360 samples the emitted cloud has `360*360 = 129600` points, not 360. -/
theorem point_count_is_not_360 :
    (lidarCallback symArith emptyCloud 330 symScan).map (fun o => o.points.length)
      = some 129600 ∧
    (lidarCallback symArith emptyCloud 330 symScan).map (fun o => o.points.length)
      ≠ some 360 := by
  obtain ⟨out, hout, _, hlen, _, _⟩ :=
    lidarCallback_spec symArith emptyCloud 330 symScan (by decide) (by simp [symScan])
  rw [hout, Option.map_some', hlen]
  exact ⟨rfl, by decide⟩

/-- C3, amended: whatever the prior cloud, the scan and the stored angle, a
cloud that `lidarCallback` emits contains exactly `360*360 = 129600` points;
and it does emit one whenever the stored angle is in `0..1023` and the scan
holds at least 360 samples. -/
theorem point_count_is_360_squared {F : Type} (A : Arith F) (pc : PointCloud F) (a : Nat)
    (ranges : List F) :
    (∀ out, lidarCallback A pc a ranges = some out → out.points.length = 360 * 360) ∧
    (a ≤ 1023 → 360 ≤ ranges.length →
      ∃ out, lidarCallback A pc a ranges = some out ∧ out.points.length = 360 * 360) := by
  refine ⟨fun out h => lidarCallback_length A pc out a ranges h, fun ha hn => ?_⟩
  obtain ⟨out, hout, _, hlen, _, _⟩ := lidarCallback_spec A pc a ranges ha hn
  exact ⟨out, hout, hlen⟩

/-- C3 amended, on an empty prior cloud, raw angle 330 and 360 samples. -/
theorem point_count_is_360_squared_witness :
    330 ≤ 1023 ∧ 360 ≤ symScan.length ∧
    ∃ out, lidarCallback symArith emptyCloud 330 symScan = some out ∧
      out.points.length = 360 * 360 :=
  ⟨by decide, by simp [symScan],
    (point_count_is_360_squared symArith emptyCloud 330 symScan).2 (by decide)
      (by simp [symScan])⟩

/-- C10: for a stored raw angle in `0..1023`, a sample index below 360 and a
scan of at least 360 samples, `current_angle` lies in `29..119`, the subscript
`i*current_angle` lies in `0..360*360-1`, and the handler runs to completion
(no read or write leaves its vector). -/
theorem writes_in_bounds {F : Type} (A : Arith F) (pc : PointCloud F) (a i : Nat)
    (ranges : List F) (ha : a ≤ 1023) (hi : i < 360) (hn : 360 ≤ ranges.length) :
    (29 ≤ current_angle a ∧ current_angle a ≤ 119) ∧
    (0 ≤ slot (current_angle a) i ∧ slot (current_angle a) i < 360 * 360) ∧
    (∀ pts : List (Point32 F), pts.length = 360 * 360 →
      (loopBody A (current_angle a) ranges pts i).isSome = true) ∧
    (lidarCallback A pc a ranges).isSome = true := by
  obtain ⟨h0, h1⟩ := slot_bounds a i ha hi
  refine ⟨current_angle_bounds a ha, ⟨h0, by omega⟩, ?_, ?_⟩
  · intro pts hpts
    have hget : ranges[i]? = some ranges[i] := List.getElem?_eq_getElem (by omega)
    rw [loopBody_eq A _ ranges pts i _ hget h0 (by rw [hpts]; exact h1)]
    rfl
  · obtain ⟨out, hout, _⟩ := lidarCallback_spec A pc a ranges ha hn
    rw [hout]
    rfl

/-- C10 at raw angle 0 (elevation 119) and the last sample: subscript
`359*119 = 42721`. -/
theorem writes_in_bounds_witness :
    (0 ≤ 1023 ∧ 359 < 360 ∧ 360 ≤ symScan.length) ∧
    slot (current_angle 0) 359 = 42721 ∧
    ((29 ≤ current_angle 0 ∧ current_angle 0 ≤ 119) ∧
    (0 ≤ slot (current_angle 0) 359 ∧ slot (current_angle 0) 359 < 360 * 360) ∧
    (∀ pts : List (Point32 Sym), pts.length = 360 * 360 →
      (loopBody symArith (current_angle 0) symScan pts 359).isSome = true) ∧
    (lidarCallback symArith emptyCloud 0 symScan).isSome = true) :=
  ⟨⟨by decide, by decide, by simp [symScan]⟩,
    by rw [current_angle_eq 0 (by decide)]; decide,
    writes_in_bounds symArith emptyCloud 0 359 symScan (by decide) (by decide)
      (by simp [symScan])⟩

/-- C9: for a stored raw angle in `0..1023` and a scan of at least 360
samples, `current_angle` is not 0, two different sample indices below 360 get
two different subscripts `i*current_angle`, and in the emitted cloud the slot
of every sample holds that sample's point: none was overwritten by another. -/
theorem one_slot_per_sample {F : Type} (A : Arith F) (pc : PointCloud F) (a : Nat)
    (ranges : List F) (ha : a ≤ 1023) (hn : 360 ≤ ranges.length) :
    current_angle a ≠ 0 ∧
    (∀ i j, i < 360 → j < 360 → i ≠ j →
      slot (current_angle a) i ≠ slot (current_angle a) j) ∧
    ∃ out, lidarCallback A pc a ranges = some out ∧
      ∀ i, i < 360 → ∀ r, ranges[i]? = some r →
        0 ≤ slot (current_angle a) i ∧
        out.points[(slot (current_angle a) i).toNat]? =
          some (samplePoint A (current_angle a) i r) := by
  obtain ⟨out, hout, _, _, hwr, _⟩ := lidarCallback_spec A pc a ranges ha hn
  refine ⟨?_, ?_, out, hout, fun i hi r hr => ⟨(slot_bounds a i ha hi).1, hwr i hi r hr⟩⟩
  · have hb := current_angle_bounds a ha
    omega
  · intro i j _ _ hij hslot
    exact hij (slot_toNat_inj a i j ha (congrArg Int.toNat hslot))

/-- C9 at raw angle 330 (elevation 90) on the symbolic scan. -/
theorem one_slot_per_sample_witness :
    (330 ≤ 1023 ∧ 360 ≤ symScan.length) ∧
    (current_angle 330 ≠ 0 ∧
    (∀ i j, i < 360 → j < 360 → i ≠ j →
      slot (current_angle 330) i ≠ slot (current_angle 330) j) ∧
    ∃ out, lidarCallback symArith usedCloud 330 symScan = some out ∧
      ∀ i, i < 360 → ∀ r, symScan[i]? = some r →
        0 ≤ slot (current_angle 330) i ∧
        out.points[(slot (current_angle 330) i).toNat]? =
          some (samplePoint symArith (current_angle 330) i r)) :=
  ⟨⟨by decide, by simp [symScan]⟩,
    one_slot_per_sample symArith usedCloud 330 symScan (by decide) (by simp [symScan])⟩

/-- C8: for every prior cloud, every scan of at least 360 samples and every
stored raw angle in `0..1023`, the handler emits a cloud `out`, and run again
on `out` with the same scan and angle it emits `out` again. -/
theorem lidarCallback_idempotent {F : Type} (A : Arith F) (pc : PointCloud F) (a : Nat)
    (ranges : List F) (ha : a ≤ 1023) (hn : 360 ≤ ranges.length) :
    ∃ out, lidarCallback A pc a ranges = some out ∧ lidarCallback A out a ranges = some out := by
  obtain ⟨out, hout, hfr, hlen, hwr, _⟩ := lidarCallback_spec A pc a ranges ha hn
  obtain ⟨out2, hout2, hfr2, _, hwr2, hkeep2⟩ := lidarCallback_spec A out a ranges ha hn
  refine ⟨out, hout, ?_⟩
  rw [hout2]
  have hpts : out2.points = out.points := by
    apply List.ext_getElem?
    intro j
    by_cases hj : ∃ i, i < 360 ∧ (slot (current_angle a) i).toNat = j
    · obtain ⟨i, hi, hij⟩ := hj
      have hget : ranges[i]? = some ranges[i] := List.getElem?_eq_getElem (by omega)
      rw [← hij, hwr2 i hi _ hget, hwr i hi _ hget]
    · rw [hkeep2 j (fun i hi hij => hj ⟨i, hi, hij⟩), resize_of_length A out.points _ hlen]
  obtain ⟨f2, p2⟩ := out2
  obtain ⟨f1, p1⟩ := out
  simp only at hfr hfr2 hpts
  rw [hfr, hfr2, hpts]

/-- C8 on a prior cloud that already holds points, raw angle 586 (the
elevation `67.5` rounds to 68). -/
theorem lidarCallback_idempotent_witness :
    (586 ≤ 1023 ∧ 360 ≤ symScan.length) ∧
    ∃ out, lidarCallback symArith usedCloud 586 symScan = some out ∧
      lidarCallback symArith out 586 symScan = some out :=
  ⟨⟨by decide, by simp [symScan]⟩,
    lidarCallback_idempotent symArith usedCloud 586 symScan (by decide) (by simp [symScan])⟩

/-- C6, as stated, fails: with the same scan and the same raw angle 330
(elevation 90, so slot 1 is not written) the emitted cloud has a zero point in
slot 1 when the prior cloud was empty and the earlier point when the prior
cloud held one there; the two emitted clouds differ. -/
theorem emitted_cloud_depends_on_prior_buffer :
    (lidarCallback symArith emptyCloud 330 symScan).map (fun o => o.points[1]?)
      = some (some ⟨Sym.zero, Sym.zero, Sym.zero⟩) ∧
    (lidarCallback symArith usedCloud 330 symScan).map (fun o => o.points[1]?)
      = some (some ⟨Sym.sample 7, Sym.sample 8, Sym.sample 9⟩) ∧
    lidarCallback symArith emptyCloud 330 symScan
      ≠ lidarCallback symArith usedCloud 330 symScan := by
  have hc : current_angle 330 = 90 := by
    rw [current_angle_eq 330 (by decide)]
    decide
  have hfree : ∀ i, i < 360 → (slot (current_angle 330) i).toNat ≠ 1 := by
    intro i _
    rw [hc]
    unfold slot
    omega
  obtain ⟨o1, ho1, _, _, _, hk1⟩ :=
    lidarCallback_spec symArith emptyCloud 330 symScan (by decide) (by simp [symScan])
  obtain ⟨o2, ho2, _, _, _, hk2⟩ :=
    lidarCallback_spec symArith usedCloud 330 symScan (by decide) (by simp [symScan])
  have h1 : o1.points[1]? = some ⟨Sym.zero, Sym.zero, Sym.zero⟩ := by
    rw [hk1 1 hfree]
    exact resize_getElem?_of_ge symArith emptyCloud.points (360 * 360) 1 (by decide) (by decide)
  have h2 : o2.points[1]? = some ⟨Sym.sample 7, Sym.sample 8, Sym.sample 9⟩ := by
    rw [hk2 1 hfree,
      resize_getElem?_of_lt symArith usedCloud.points (360 * 360) 1 (by decide) (by decide)]
    rfl
  rw [ho1, ho2]
  refine ⟨by rw [Option.map_some', h1], by rw [Option.map_some', h2], ?_⟩
  intro heq
  have h12 : o1 = o2 := Option.some.inj heq
  rw [h12, h2] at h1
  exact absurd h1 (by decide)

/-- C6, amended: for a stored raw angle in `0..1023` and a scan of at least 360
samples, the clouds emitted from any two prior buffers have the same frame id
and the same number of points and agree in every slot `i*current_angle`
(`i < 360`), whose content comes from the scan and the angle only; each other
slot holds what the prior buffer, resized to `360*360`, held there. -/
theorem emitted_cloud_frame_dependency {F : Type} (A : Arith F) (pc1 pc2 : PointCloud F)
    (a : Nat) (ranges : List F) (ha : a ≤ 1023) (hn : 360 ≤ ranges.length) :
    ∃ out1 out2, lidarCallback A pc1 a ranges = some out1 ∧
      lidarCallback A pc2 a ranges = some out2 ∧
      out1.frame_id = out2.frame_id ∧ out1.points.length = out2.points.length ∧
      (∀ i, i < 360 → ∀ r, ranges[i]? = some r →
        out1.points[(slot (current_angle a) i).toNat]? =
          some (samplePoint A (current_angle a) i r) ∧
        out2.points[(slot (current_angle a) i).toNat]? =
          some (samplePoint A (current_angle a) i r)) ∧
      (∀ j, (∀ i, i < 360 → (slot (current_angle a) i).toNat ≠ j) →
        out1.points[j]? = (resize A pc1.points (360 * 360))[j]? ∧
        out2.points[j]? = (resize A pc2.points (360 * 360))[j]?) := by
  obtain ⟨o1, ho1, hf1, hl1, hw1, hk1⟩ := lidarCallback_spec A pc1 a ranges ha hn
  obtain ⟨o2, ho2, hf2, hl2, hw2, hk2⟩ := lidarCallback_spec A pc2 a ranges ha hn
  exact ⟨o1, o2, ho1, ho2, by rw [hf1, hf2], by rw [hl1, hl2],
    fun i hi r hr => ⟨hw1 i hi r hr, hw2 i hi r hr⟩, fun j hj => ⟨hk1 j hj, hk2 j hj⟩⟩

/-- C6 amended, on the empty and the used prior cloud at raw angle 330. -/
theorem emitted_cloud_frame_dependency_witness :
    (330 ≤ 1023 ∧ 360 ≤ symScan.length) ∧
    ∃ out1 out2, lidarCallback symArith emptyCloud 330 symScan = some out1 ∧
      lidarCallback symArith usedCloud 330 symScan = some out2 ∧
      out1.frame_id = out2.frame_id ∧ out1.points.length = out2.points.length ∧
      (∀ i, i < 360 → ∀ r, symScan[i]? = some r →
        out1.points[(slot (current_angle 330) i).toNat]? =
          some (samplePoint symArith (current_angle 330) i r) ∧
        out2.points[(slot (current_angle 330) i).toNat]? =
          some (samplePoint symArith (current_angle 330) i r)) ∧
      (∀ j, (∀ i, i < 360 → (slot (current_angle 330) i).toNat ≠ j) →
        out1.points[j]? = (resize symArith emptyCloud.points (360 * 360))[j]? ∧
        out2.points[j]? = (resize symArith usedCloud.points (360 * 360))[j]?) :=
  ⟨⟨by decide, by simp [symScan]⟩,
    emitted_cloud_frame_dependency symArith emptyCloud usedCloud 330 symScan (by decide)
      (by simp [symScan])⟩

/-! ## Distance of a projected point from the origin -/

/-- In exact real arithmetic the squared distance of a sample's point is
`r^2 * (1 - cos(el)^2 * sin(az)^2)`. -/
theorem samplePoint_norm_sq (A : Arith ℝ) (hA : ExactReal A) (c : Int) (i : Nat) (r : ℝ) :
    (samplePoint A c i r).x ^ 2 + (samplePoint A c i r).y ^ 2 + (samplePoint A c i r).z ^ 2 =
      r ^ 2 * (1 - Real.cos ((c : ℝ) * 0.0175) ^ 2 * Real.sin ((i : ℝ) * 0.0175) ^ 2) := by
  obtain ⟨hof, hdeg, hmul, hcos, hsin, _, hnar⟩ := hA
  have e1 := Real.sin_sq_add_cos_sq ((c : ℝ) * 0.0175)
  have e2 := Real.sin_sq_add_cos_sq ((i : ℝ) * 0.0175)
  simp only [samplePoint, hof, hdeg, hmul, hcos, hsin, hnar, Int.cast_natCast]
  have hS : Real.sin ((c : ℝ) * 0.0175) ^ 2 = 1 - Real.cos ((c : ℝ) * 0.0175) ^ 2 := by
    linarith
  have hC : Real.cos ((i : ℝ) * 0.0175) ^ 2 = 1 - Real.sin ((i : ℝ) * 0.0175) ^ 2 := by
    linarith
  have expand : ∀ s t u v : ℝ, (r * u * s) ^ 2 + (r * v * s) ^ 2 + (r * t * u) ^ 2 =
      r ^ 2 * (s ^ 2 * (u ^ 2 + v ^ 2) + t ^ 2 * u ^ 2) := by
    intro s t u v
    ring
  rw [expand, hS, hC]
  ring

theorem defect_bounds (x y : ℝ) : 0 ≤ Real.cos x ^ 2 * Real.sin y ^ 2 ∧
    Real.cos x ^ 2 * Real.sin y ^ 2 ≤ 1 := by
  have h1 := Real.cos_sq_le_one x
  have h2 := Real.sin_sq_le_one y
  have h3 := sq_nonneg (Real.cos x)
  have h4 := sq_nonneg (Real.sin y)
  exact ⟨mul_nonneg h3 h4, by nlinarith⟩

/-- The literal exact-real interpretation satisfies `ExactReal`. -/
theorem exactReal_literal :
    ExactReal ⟨fun n => (n : ℝ), 0.0175, fun x y => x * y, Real.cos, Real.sin, 0, fun x => x⟩ :=
  ⟨fun _ => rfl, rfl, fun _ _ => rfl, fun _ => rfl, fun _ => rfl, rfl, fun _ => rfl⟩

/-- C4, as stated, fails in exact real arithmetic: at raw angle 842
(elevation 45), sample 90 and range 1 the point is not at distance 1 (it is
at about 0.707). -/
theorem range_not_preserved_at_sample_90 :
    current_angle 842 = 45 ∧
    ¬ RangePreserved
      (samplePoint ⟨fun n => (n : ℝ), 0.0175, fun x y => x * y, Real.cos, Real.sin, 0, fun x => x⟩
        (current_angle 842) 90 1) 1 := by
  have hc : current_angle 842 = 45 := by
    rw [current_angle_eq 842 (by decide)]
    decide
  refine ⟨hc, ?_⟩
  intro h
  unfold RangePreserved at h
  rw [samplePoint_norm_sq _ exactReal_literal, hc] at h
  have hpi := Real.pi_gt_three
  have hcos : 0 < Real.cos (((45 : Int) : ℝ) * 0.0175) := by
    apply Real.cos_pos_of_mem_Ioo
    constructor <;> norm_num <;> linarith
  have hsin : 0 < Real.sin (((90 : Nat) : ℝ) * 0.0175) := by
    apply Real.sin_pos_of_pos_of_lt_pi
    · norm_num
    · norm_num
      linarith
  have hpos : 0 < Real.cos (((45 : Int) : ℝ) * 0.0175) ^ 2 *
      Real.sin (((90 : Nat) : ℝ) * 0.0175) ^ 2 := by positivity
  have hsq := Real.sqrt_eq_one.1 h
  linarith

/-- C4, amended: in exact real arithmetic, for every sample index, every range
`r ≥ 0` and every stored raw angle, the point written for the sample is at
distance `r * sqrt(1 - cos(el)^2 * sin(az)^2)` from the origin
(`az = i*0.0175`, `el = current_angle*0.0175`); this is at most `r`, and equals
`r` exactly when `r = 0`, `cos(el) = 0` or `sin(az) = 0`. -/
theorem range_scaled_by_defect (A : Arith ℝ) (hA : ExactReal A) (a i : Nat) (r : ℝ)
    (hr : 0 ≤ r) :
    Real.sqrt ((samplePoint A (current_angle a) i r).x ^ 2 +
        (samplePoint A (current_angle a) i r).y ^ 2 +
        (samplePoint A (current_angle a) i r).z ^ 2) =
      r * Real.sqrt (1 - Real.cos ((current_angle a : ℝ) * 0.0175) ^ 2 *
        Real.sin ((i : ℝ) * 0.0175) ^ 2) ∧
    Real.sqrt ((samplePoint A (current_angle a) i r).x ^ 2 +
        (samplePoint A (current_angle a) i r).y ^ 2 +
        (samplePoint A (current_angle a) i r).z ^ 2) ≤ r ∧
    (RangePreserved (samplePoint A (current_angle a) i r) r ↔
      r = 0 ∨ Real.cos ((current_angle a : ℝ) * 0.0175) = 0 ∨
        Real.sin ((i : ℝ) * 0.0175) = 0) := by
  obtain ⟨hd0, hd1⟩ := defect_bounds ((current_angle a : ℝ) * 0.0175) ((i : ℝ) * 0.0175)
  have hnorm : Real.sqrt ((samplePoint A (current_angle a) i r).x ^ 2 +
        (samplePoint A (current_angle a) i r).y ^ 2 +
        (samplePoint A (current_angle a) i r).z ^ 2) =
      r * Real.sqrt (1 - Real.cos ((current_angle a : ℝ) * 0.0175) ^ 2 *
        Real.sin ((i : ℝ) * 0.0175) ^ 2) := by
    rw [samplePoint_norm_sq A hA, Real.sqrt_mul (sq_nonneg r), Real.sqrt_sq hr]
  have hle : Real.sqrt (1 - Real.cos ((current_angle a : ℝ) * 0.0175) ^ 2 *
        Real.sin ((i : ℝ) * 0.0175) ^ 2) ≤ 1 := by
    have h1 : (1 : ℝ) - Real.cos ((current_angle a : ℝ) * 0.0175) ^ 2 *
        Real.sin ((i : ℝ) * 0.0175) ^ 2 ≤ 1 := by linarith
    have h2 := Real.sqrt_le_sqrt h1
    rwa [Real.sqrt_one] at h2
  refine ⟨hnorm, ?_, ?_⟩
  · rw [hnorm]
    calc r * Real.sqrt (1 - Real.cos ((current_angle a : ℝ) * 0.0175) ^ 2 *
          Real.sin ((i : ℝ) * 0.0175) ^ 2) ≤ r * 1 := mul_le_mul_of_nonneg_left hle hr
      _ = r := mul_one r
  · unfold RangePreserved
    rw [hnorm]
    constructor
    · intro h
      by_cases hr0 : r = 0
      · exact Or.inl hr0
      · right
        have h1 : Real.sqrt (1 - Real.cos ((current_angle a : ℝ) * 0.0175) ^ 2 *
            Real.sin ((i : ℝ) * 0.0175) ^ 2) = 1 := by
          have h2 : r * Real.sqrt (1 - Real.cos ((current_angle a : ℝ) * 0.0175) ^ 2 *
              Real.sin ((i : ℝ) * 0.0175) ^ 2) = r * 1 := by rw [h, mul_one]
          exact mul_left_cancel₀ hr0 h2
        have h3 := Real.sqrt_eq_one.1 h1
        have h4 : Real.cos ((current_angle a : ℝ) * 0.0175) ^ 2 *
            Real.sin ((i : ℝ) * 0.0175) ^ 2 = 0 := by linarith
        rcases mul_eq_zero.1 h4 with h5 | h5
        · exact Or.inl ((pow_eq_zero_iff two_ne_zero).1 h5)
        · exact Or.inr ((pow_eq_zero_iff two_ne_zero).1 h5)
    · intro h
      rcases h with h | h | h
      · rw [h, zero_mul]
      · rw [h]
        norm_num
      · rw [h]
        norm_num

/-- C4 amended, at raw angle 842, sample 90 and range 1. -/
theorem range_scaled_by_defect_witness :
    (ExactReal ⟨fun n => (n : ℝ), 0.0175, fun x y => x * y, Real.cos, Real.sin, 0, fun x => x⟩ ∧
      (0 : ℝ) ≤ 1) ∧
    Real.sqrt ((samplePoint
        ⟨fun n => (n : ℝ), 0.0175, fun x y => x * y, Real.cos, Real.sin, 0, fun x => x⟩
        (current_angle 842) 90 1).x ^ 2 +
      (samplePoint
        ⟨fun n => (n : ℝ), 0.0175, fun x y => x * y, Real.cos, Real.sin, 0, fun x => x⟩
        (current_angle 842) 90 1).y ^ 2 +
      (samplePoint
        ⟨fun n => (n : ℝ), 0.0175, fun x y => x * y, Real.cos, Real.sin, 0, fun x => x⟩
        (current_angle 842) 90 1).z ^ 2) ≤ 1 :=
  ⟨⟨exactReal_literal, zero_le_one⟩,
    (range_scaled_by_defect _ exactReal_literal 842 90 1 zero_le_one).2.1⟩

end Tracking3D
